import Mathlib

/-!
# Verification of the rme3 TDF wire codec

Shallow embedding of `src/tdf.rs` and `src/packet.rs` over `List Nat`
byte streams (each byte a `Nat` below 256).  Rust `io::Result` failure is
modelled by `Except Err`; a Rust runtime fault (integer-underflow panic,
out-of-bounds index, `Option::unwrap` on `None`) is modelled by the
distinguished error `Err.panic`, so that a function which the Rust code
would abort on is total here and the abort is observable.
-/

/-- Failure modes of the embedded readers and writers.  `eof` models a
read past the end of the stream, `invalidData` the UTF-8 failure in
`String::read`, and `panic` a Rust-side runtime abort (underflow,
out-of-bounds index, unwrap of `None`). -/
inductive Err where
  | eof
  | invalidData
  | panic
deriving DecidableEq, Repr

/-! ## VarInt codec (src/tdf.rs lines 97-132) -/

/-- Continuation bytes emitted by the `while curr_shift >= 0x80` loop of
`VarInt::write` (src/tdf.rs lines 106-111), followed by the final byte
`curr_shift` once it drops below `0x80`. -/
def varIntWriteLoop (s : Nat) : List Nat :=
  if s ≥ 0x80 then ((s &&& 0x7F) ||| 0x80) :: varIntWriteLoop (s >>> 7)
  else [s]
termination_by s
decreasing_by
  simp only [Nat.shiftRight_eq_div_pow]
  omega

/-- `impl Writeable for VarInt` (src/tdf.rs lines 97-115).  A value below
`0x40` (including every negative value, since the comparison is on `i64`)
is written as its two's-complement low byte; otherwise the low 6 bits go
out with the continuation bit `0x80` and the rest follows in 7-bit groups. -/
def varIntWrite (value : Int) : List Nat :=
  if value < 0x40 then
    [(value % 256).toNat]              -- (value & 0xFF) as u8
  else
    ((value.toNat &&& 0x3F) ||| 0x80) :: varIntWriteLoop (value.toNat >>> 6)

/-- Continuation loop of `VarInt::read` (src/tdf.rs lines 123-128).  The
source initialises `shift = 6` and never increments it, so every
continuation byte contributes its low 7 bits at shift 6; the embedding
keeps that behaviour.  `acc` is the accumulated result. -/
def varIntReadLoop (acc : Nat) : List Nat → Except Err (Nat × List Nat)
  | [] => .error .eof
  | b :: rest =>
    let acc2 := acc ||| ((b &&& 0x7F) <<< 6)
    if b < 0x80 then .ok (acc2, rest) else varIntReadLoop acc2 rest

/-- `impl Readable for VarInt` (src/tdf.rs lines 117-132).  The result is
always non-negative, so it is computed as a `Nat` and returned as `Int`. -/
def varIntRead : List Nat → Except Err (Int × List Nat)
  | [] => .error .eof
  | first :: rest =>
    if first ≥ 0x80 then
      match varIntReadLoop (first &&& 0x3F) rest with
      | .ok (v, r) => .ok ((v : Int), r)
      | .error e => .error e
    else .ok ((Int.ofNat (first &&& 0x3F)), rest)

theorem varIntReadLoop_length {acc : Nat} {bs r : List Nat} {v : Nat}
    (h : varIntReadLoop acc bs = .ok (v, r)) : r.length < bs.length := by
  induction bs generalizing acc with
  | nil => simp [varIntReadLoop] at h
  | cons b rest ih =>
    simp only [varIntReadLoop] at h
    split at h
    · cases h
      simp
    · have := ih h
      simp only [List.length_cons]
      omega

theorem varIntRead_length {bs r : List Nat} {v : Int}
    (h : varIntRead bs = .ok (v, r)) : r.length < bs.length := by
  cases bs with
  | nil => simp [varIntRead] at h
  | cons first rest =>
    simp only [varIntRead] at h
    split at h
    · split at h
      next heq =>
        cases h
        have := varIntReadLoop_length heq
        simp only [List.length_cons]
        omega
      next => cases h
    · cases h
      simp

theorem varIntReadLoop_bound {acc : Nat} {bs r : List Nat} {v : Nat}
    (hacc : acc < 8192) (h : varIntReadLoop acc bs = .ok (v, r)) : v < 8192 := by
  induction bs generalizing acc with
  | nil => simp [varIntReadLoop] at h
  | cons b rest ih =>
    simp only [varIntReadLoop] at h
    have hacc2 : (acc ||| ((b &&& 0x7F) <<< 6)) < 8192 := by
      have h1 : (b &&& 0x7F) < 2 ^ 7 := Nat.and_lt_two_pow b (by norm_num)
      have h2 : ((b &&& 0x7F) <<< 6) < 2 ^ 13 := by
        rw [Nat.shiftLeft_eq]
        have : (b &&& 0x7F) * 2 ^ 6 < 2 ^ 7 * 2 ^ 6 :=
          Nat.mul_lt_mul_of_lt_of_le h1 (le_refl _) (by norm_num)
        omega
      have hacc13 : acc < 2 ^ 13 := by norm_num [hacc]
      have := Nat.or_lt_two_pow hacc13 h2
      omega
    split at h
    · cases h; exact hacc2
    · exact ih hacc2 h

/-- Every value `VarInt::read` can produce is below `2 ^ 13`: the first
byte contributes 6 bits and, because `shift` is never incremented, all
continuation bytes land on bits 6-12. -/
theorem varIntRead_bound {bs r : List Nat} {v : Int}
    (h : varIntRead bs = .ok (v, r)) : v.toNat < 8192 := by
  cases bs with
  | nil => simp [varIntRead] at h
  | cons first rest =>
    simp only [varIntRead] at h
    have hfirst : (first &&& 0x3F) < 8192 := by
      have := Nat.and_lt_two_pow first (show (0x3F : Nat) < 2 ^ 6 by norm_num)
      omega
    split at h
    · split at h
      next heq =>
        cases h
        have := varIntReadLoop_bound hfirst heq
        simpa
      next => cases h
    · cases h
      simpa

/-- C2: VarInt round-trip.  This theorem records the failure of the claim
on the code: `VarInt::write 0x2000` emits the minimal form
`[0x80, 0x80, 0x01]`, but `VarInt::read` folds both continuation bytes in
at shift 6 (the source never increments `shift`), returning `0x40`
instead of `0x2000`. -/
theorem varIntRead_write_0x2000_is_0x40 :
    varIntWrite 0x2000 = [0x80, 0x80, 0x01] ∧
    varIntRead [0x80, 0x80, 0x01] = .ok ((0x40 : Int), []) ∧
    (0x40 : Int) ≠ 0x2000 := by
  refine ⟨?_, by rfl, by decide⟩
  have l2 : varIntWriteLoop 1 = [1] := by
    rw [varIntWriteLoop]; simp
  have l1 : varIntWriteLoop 128 = [0x80, 0x01] := by
    rw [varIntWriteLoop]
    simp [l2]
    decide
  simp [varIntWrite, l1]
  decide

/-! ## Label/tag codec (src/tdf.rs lines 162-208) -/

/-- Byte 0 of the tag built by `LabeledTdf::label_to_tag`
(src/tdf.rs lines 166-171); the `(buff[0] & 0x40) << 1` term is
duplicated in the source, which is harmless since `|=` is idempotent. -/
def tagByte0 (c0 c1 : Nat) : Nat :=
  ((c0 &&& 0x40) <<< 1) ||| ((c0 &&& 0x40) <<< 1) ||| ((c0 &&& 0x10) <<< 2) |||
  ((c0 &&& 0x0F) <<< 2) ||| ((c1 &&& 0x40) >>> 5) ||| ((c1 &&& 0x10) >>> 4)

/-- Byte 1 of the tag built by `LabeledTdf::label_to_tag`
(src/tdf.rs lines 173-176). -/
def tagByte1 (c1 c2 : Nat) : Nat :=
  ((c1 &&& 0x0F) <<< 4) ||| ((c2 &&& 0x40) >>> 3) ||| ((c2 &&& 0x10) >>> 2) |||
  ((c2 &&& 0x0C) >>> 2)

/-- Byte 2 of the tag built by `LabeledTdf::label_to_tag`
(src/tdf.rs lines 178-180). -/
def tagByte2 (c2 c3 : Nat) : Nat :=
  ((c2 &&& 0x03) <<< 6) ||| ((c3 &&& 0x40) >>> 1) ||| (c3 &&& 0x1F)

/-- `LabeledTdf::label_to_tag` (src/tdf.rs lines 163-183).  The source
indexes `buff[0]` through `buff[3]` unconditionally on
`label.as_bytes()`; a label shorter than 4 bytes makes one of those
indexing operations panic, modelled here by `none`. -/
def labelToTag (label : List Nat) : Option (List Nat) :=
  match label[0]?, label[1]?, label[2]?, label[3]? with
  | some c0, some c1, some c2, some c3 =>
      some [tagByte0 c0 c1, tagByte1 c1 c2, tagByte2 c2 c3]
  | _, _, _, _ => none

/-- Character 0 recovered by `LabeledTdf::tag_to_label` from big-endian
byte 0 of the tag (src/tdf.rs lines 188-191). -/
def labelChar0 (b0 : Nat) : Nat :=
  ((b0 &&& 0x80) >>> 1) ||| ((b0 &&& 0x40) >>> 2) ||| ((b0 &&& 0x30) >>> 2) |||
  ((b0 &&& 0x0C) >>> 2)

/-- Character 1 recovered by `LabeledTdf::tag_to_label`
(src/tdf.rs lines 193-195). -/
def labelChar1 (b0 b1 : Nat) : Nat :=
  ((b0 &&& 0x02) <<< 5) ||| ((b0 &&& 0x01) <<< 4) ||| ((b1 &&& 0xF0) >>> 4)

/-- Character 2 recovered by `LabeledTdf::tag_to_label`
(src/tdf.rs lines 197-200). -/
def labelChar2 (b1 b2 : Nat) : Nat :=
  ((b1 &&& 0x08) <<< 3) ||| ((b1 &&& 0x04) <<< 2) ||| ((b1 &&& 0x03) <<< 2) |||
  ((b2 &&& 0xC0) >>> 6)

/-- Character 3 recovered by `LabeledTdf::tag_to_label`
(src/tdf.rs lines 202-203). -/
def labelChar3 (b2 : Nat) : Nat :=
  ((b2 &&& 0x20) <<< 1) ||| (b2 &&& 0x1F)

/-- `LabeledTdf::tag_to_label` (src/tdf.rs lines 185-208).  The argument
is the `u32` whose big-endian bytes `to_be_bytes` would produce; byte 3
is never read by the source.  Characters that decode to zero are dropped
by the `filter_map`. -/
def tagToLabel (tag : Nat) : List Nat :=
  let b0 := (tag >>> 24) &&& 0xFF
  let b1 := (tag >>> 16) &&& 0xFF
  let b2 := (tag >>> 8) &&& 0xFF
  [labelChar0 b0, labelChar1 b0 b1, labelChar2 b1 b2, labelChar3 b2].filter
    (fun v => v != 0)

/-- Big-endian `u32` formed from the three tag bytes, as
`LabeledTdf::read` builds it: the head word is `read_u32::<BigEndian>`
of tag byte 0, tag byte 1, tag byte 2 and the type byte, and the tag is
`head & 0xFFFFFF00`, so the type byte is cleared (src/tdf.rs 225-226). -/
def tagU32 (tagBytes : List Nat) : Nat :=
  match tagBytes with
  | [t0, t1, t2] => t0 * 2 ^ 24 + t1 * 2 ^ 16 + t2 * 2 ^ 8
  | _ => 0

/-- Composition the round-trip claims are about: pack a label to its
3-byte tag, then decode the tag back to a label. -/
def labelRoundTrip (label : List Nat) : Option (List Nat) :=
  (labelToTag label).map (fun t => tagToLabel (tagU32 t))

/-- The 64 byte values on which the packing scheme is lossless: exactly
those with bit 7 and bit 5 clear, since `label_to_tag` keeps only bits
{6,4,3,2,1,0} of every character. -/
def alphaList : List Nat := (List.range 256).filter (fun c => c &&& 0xA0 == 0)

theorem mem_alphaList {c : Nat} (h1 : c < 256) (h2 : c &&& 0xA0 = 0) :
    c ∈ alphaList := by
  simp [alphaList, List.mem_filter, List.mem_range, h1, h2]

theorem allPairs_imp {p : Nat → Nat → Bool}
    (hall : (alphaList.all fun a => alphaList.all fun b => p a b) = true)
    {a b : Nat} (ha : a ∈ alphaList) (hb : b ∈ alphaList) : p a b = true :=
  List.all_eq_true.mp (List.all_eq_true.mp hall a ha) b hb

theorem allSingle_imp {p : Nat → Bool}
    (hall : (alphaList.all fun a => p a) = true)
    {a : Nat} (ha : a ∈ alphaList) : p a = true :=
  List.all_eq_true.mp hall a ha

/-- Exhaustive check over the alphabet: character 0 is recovered from tag
byte 0, and tag byte 0 is a byte. -/
theorem tagByte0_facts :
    (alphaList.all fun c0 => alphaList.all fun c1 =>
      (labelChar0 (tagByte0 c0 c1) == c0) &&
      (tagByte0 c0 c1 &&& 0x02 == (c1 &&& 0x40) >>> 5) &&
      (tagByte0 c0 c1 &&& 0x01 == (c1 &&& 0x10) >>> 4) &&
      decide (tagByte0 c0 c1 < 256)) = true := by decide

/-- Exhaustive check over the alphabet: the masks `tag_to_label` applies
to tag byte 1 isolate the contributions of `c1` and `c2`. -/
theorem tagByte1_facts :
    (alphaList.all fun c1 => alphaList.all fun c2 =>
      (tagByte1 c1 c2 &&& 0xF0 == (c1 &&& 0x0F) <<< 4) &&
      (tagByte1 c1 c2 &&& 0x08 == (c2 &&& 0x40) >>> 3) &&
      (tagByte1 c1 c2 &&& 0x04 == (c2 &&& 0x10) >>> 2) &&
      (tagByte1 c1 c2 &&& 0x03 == (c2 &&& 0x0C) >>> 2) &&
      decide (tagByte1 c1 c2 < 256)) = true := by decide

/-- Exhaustive check over the alphabet: character 3 is recovered from tag
byte 2, and the mask `0xC0` isolates the contribution of `c2`. -/
theorem tagByte2_facts :
    (alphaList.all fun c2 => alphaList.all fun c3 =>
      (labelChar3 (tagByte2 c2 c3) == c3) &&
      (tagByte2 c2 c3 &&& 0xC0 == (c2 &&& 0x03) <<< 6) &&
      decide (tagByte2 c2 c3 < 256)) = true := by decide

/-- Exhaustive check over the alphabet: reassembling the pieces of `c1`
and `c2` that the two tag bytes carry yields the character back. -/
theorem reassemble_facts :
    (alphaList.all fun c =>
      ((((c &&& 0x40) >>> 5) <<< 5) ||| (((c &&& 0x10) >>> 4) <<< 4) |||
        (((c &&& 0x0F) <<< 4) >>> 4) == c) &&
      ((((c &&& 0x40) >>> 3) <<< 3) ||| (((c &&& 0x10) >>> 2) <<< 2) |||
        (((c &&& 0x0C) >>> 2) <<< 2) ||| (((c &&& 0x03) <<< 6) >>> 6) == c)) =
      true := by decide

theorem roundPos0 {c0 c1 : Nat} (h0 : c0 ∈ alphaList) (h1 : c1 ∈ alphaList) :
    labelChar0 (tagByte0 c0 c1) = c0 := by
  have h := allPairs_imp tagByte0_facts h0 h1
  simp only [Bool.and_eq_true, beq_iff_eq, decide_eq_true_eq] at h
  exact h.1.1.1

theorem roundPos1 {c0 c1 c2 : Nat} (h0 : c0 ∈ alphaList) (h1 : c1 ∈ alphaList)
    (h2 : c2 ∈ alphaList) :
    labelChar1 (tagByte0 c0 c1) (tagByte1 c1 c2) = c1 := by
  have ha := allPairs_imp tagByte0_facts h0 h1
  have hb := allPairs_imp tagByte1_facts h1 h2
  have hc := allSingle_imp reassemble_facts h1
  simp only [Bool.and_eq_true, beq_iff_eq, decide_eq_true_eq] at ha hb hc
  rw [labelChar1, ha.1.1.2, ha.1.2, hb.1.1.1.1]
  exact hc.1

theorem roundPos2 {c1 c2 c3 : Nat} (h1 : c1 ∈ alphaList) (h2 : c2 ∈ alphaList)
    (h3 : c3 ∈ alphaList) :
    labelChar2 (tagByte1 c1 c2) (tagByte2 c2 c3) = c2 := by
  have hb := allPairs_imp tagByte1_facts h1 h2
  have hc := allPairs_imp tagByte2_facts h2 h3
  have hd := allSingle_imp reassemble_facts h2
  simp only [Bool.and_eq_true, beq_iff_eq, decide_eq_true_eq] at hb hc hd
  rw [labelChar2, hb.1.1.1.2, hb.1.1.2, hb.1.2, hc.1.2]
  exact hd.2

theorem roundPos3 {c2 c3 : Nat} (h2 : c2 ∈ alphaList) (h3 : c3 ∈ alphaList) :
    labelChar3 (tagByte2 c2 c3) = c3 := by
  have h := allPairs_imp tagByte2_facts h2 h3
  simp only [Bool.and_eq_true, beq_iff_eq, decide_eq_true_eq] at h
  exact h.1.1

theorem tagByte_bounds {c0 c1 c2 c3 : Nat} (h0 : c0 ∈ alphaList)
    (h1 : c1 ∈ alphaList) (h2 : c2 ∈ alphaList) (h3 : c3 ∈ alphaList) :
    tagByte0 c0 c1 < 256 ∧ tagByte1 c1 c2 < 256 ∧ tagByte2 c2 c3 < 256 := by
  have ha := allPairs_imp tagByte0_facts h0 h1
  have hb := allPairs_imp tagByte1_facts h1 h2
  have hc := allPairs_imp tagByte2_facts h2 h3
  simp only [Bool.and_eq_true, beq_iff_eq, decide_eq_true_eq] at ha hb hc
  exact ⟨ha.2, hb.2, hc.2⟩

/-- Big-endian byte extraction used by `tag_to_label` recovers the three
tag bytes from the `u32` that `LabeledTdf::read` builds. -/
theorem tagU32_bytes {t0 t1 t2 : Nat} (h0 : t0 < 256) (h1 : t1 < 256)
    (h2 : t2 < 256) :
    ((tagU32 [t0, t1, t2]) >>> 24) &&& 0xFF = t0 ∧
    ((tagU32 [t0, t1, t2]) >>> 16) &&& 0xFF = t1 ∧
    ((tagU32 [t0, t1, t2]) >>> 8) &&& 0xFF = t2 := by
  have e : (0xFF : Nat) = 2 ^ 8 - 1 := by norm_num
  simp only [tagU32, e, Nat.and_pow_two_sub_one_eq_mod, Nat.shiftRight_eq_div_pow]
  norm_num
  omega

/-- C3 (amended): the label/tag round-trip holds precisely on the
packing scheme's own alphabet.  For every 4-character label whose bytes
are nonzero and have bit 7 and bit 5 clear (`c &&& 0xA0 = 0`),
`tag_to_label (label_to_tag label)` reproduces the label.  The scheme
keeps bits {6,4,3,2,1,0} of each character, so the insignificant bits
are bits 7 and 5 — not the high two bits — and zero characters would be
dropped by `tag_to_label`'s filter. -/
theorem label_tag_roundTrip (c0 c1 c2 c3 : Nat)
    (h0 : c0 < 256) (h0a : c0 &&& 0xA0 = 0) (h0z : c0 ≠ 0)
    (h1 : c1 < 256) (h1a : c1 &&& 0xA0 = 0) (h1z : c1 ≠ 0)
    (h2 : c2 < 256) (h2a : c2 &&& 0xA0 = 0) (h2z : c2 ≠ 0)
    (h3 : c3 < 256) (h3a : c3 &&& 0xA0 = 0) (h3z : c3 ≠ 0) :
    labelRoundTrip [c0, c1, c2, c3] = some [c0, c1, c2, c3] := by
  have m0 := mem_alphaList h0 h0a
  have m1 := mem_alphaList h1 h1a
  have m2 := mem_alphaList h2 h2a
  have m3 := mem_alphaList h3 h3a
  obtain ⟨b0lt, b1lt, b2lt⟩ := tagByte_bounds m0 m1 m2 m3
  obtain ⟨e0, e1, e2⟩ := tagU32_bytes b0lt b1lt b2lt
  simp only [labelRoundTrip, labelToTag, List.getElem?_cons_zero,
    List.getElem?_cons_succ, Option.map_some']
  unfold tagToLabel
  simp only
  rw [e0, e1, e2, roundPos0 m0 m1, roundPos1 m0 m1 m2, roundPos2 m1 m2 m3,
    roundPos3 m2 m3]
  rw [List.filter_cons_of_pos (by simp [h0z]),
    List.filter_cons_of_pos (by simp [h1z]),
    List.filter_cons_of_pos (by simp [h2z]),
    List.filter_cons_of_pos (by simp [h3z]), List.filter_nil]

/-- Witness for `label_tag_roundTrip`: the label `"TEST"`
(bytes `[84, 69, 83, 84]`) round-trips. -/
theorem label_tag_roundTrip_witness :
    labelRoundTrip [84, 69, 83, 84] = some [84, 69, 83, 84] :=
  label_tag_roundTrip 84 69 83 84 (by decide) (by decide) (by decide)
    (by decide) (by decide) (by decide) (by decide) (by decide) (by decide)
    (by decide) (by decide) (by decide)

/-- C3 (counterexample to the claim as stated): the label `"0000"`
(bytes `[48, 48, 48, 48]`) consists of characters whose high two bits
are clear — they lie in the claimed 64-code-point ("6-bit") alphabet —
yet the round-trip returns `"\x10\x10\x10\x10"`, because `label_to_tag`
discards bit 5 (the `0x20` bit) of every character, not the high bits. -/
theorem label_tag_roundTrip_digits_fail :
    (∀ c ∈ [48, 48, 48, 48], c < 64) ∧
    labelRoundTrip [48, 48, 48, 48] = some [16, 16, 16, 16] ∧
    labelRoundTrip [48, 48, 48, 48] ≠ some [48, 48, 48, 48] := by decide

/-- C9: `label_to_tag` on labels shorter than 4 characters.  The source
indexes `buff[0]`..`buff[3]` by fixed offsets, so every label of length
0 to 3 makes it read out of bounds and panic (modelled by `none`) —
there is no padding of missing positions. -/
theorem labelToTag_short_panics :
    ∀ (l : List Nat), l.length < 4 → labelToTag l = none := by
  intro l h
  match l with
  | [] => rfl
  | [_] => rfl
  | [_, _] => rfl
  | [_, _, _] => rfl
  | _ :: _ :: _ :: _ :: _ =>
    simp only [List.length_cons] at h
    omega

/-- Witness for `labelToTag_short_panics`: the empty label panics. -/
theorem labelToTag_short_panics_witness : labelToTag [] = none :=
  labelToTag_short_panics [] (by decide)

/-! ## String codec (src/tdf.rs lines 134-160) -/

/-- Bytes of the continuation range `0x80..=0xBF` of UTF-8. -/
def isUtf8Cont (b : Nat) : Bool := 0x80 ≤ b && b ≤ 0xBF

/-- UTF-8 validity test as performed by Rust's `String::from_utf8`
(RFC 3629: no overlong forms, no surrogates, no code points above
`U+10FFFF`). -/
def validUtf8 : List Nat → Bool
  | [] => true
  | b :: rest =>
    if b ≤ 0x7F then validUtf8 rest
    else
      match rest with
      | b1 :: r1 =>
        if 0xC2 ≤ b && b ≤ 0xDF then isUtf8Cont b1 && validUtf8 r1
        else
          match r1 with
          | b2 :: r2 =>
            if b = 0xE0 then
              (0xA0 ≤ b1 && b1 ≤ 0xBF) && isUtf8Cont b2 && validUtf8 r2
            else if (0xE1 ≤ b && b ≤ 0xEC) || b = 0xEE || b = 0xEF then
              isUtf8Cont b1 && isUtf8Cont b2 && validUtf8 r2
            else if b = 0xED then
              (0x80 ≤ b1 && b1 ≤ 0x9F) && isUtf8Cont b2 && validUtf8 r2
            else
              match r2 with
              | b3 :: r3 =>
                if b = 0xF0 then
                  (0x90 ≤ b1 && b1 ≤ 0xBF) && isUtf8Cont b2 && isUtf8Cont b3 &&
                    validUtf8 r3
                else if 0xF1 ≤ b && b ≤ 0xF3 then
                  isUtf8Cont b1 && isUtf8Cont b2 && isUtf8Cont b3 && validUtf8 r3
                else if b = 0xF4 then
                  (0x80 ≤ b1 && b1 ≤ 0x8F) && isUtf8Cont b2 && isUtf8Cont b3 &&
                    validUtf8 r3
                else false
              | [] => false
          | [] => false
      | [] => false

/-- `read_exact` into a buffer of `n` bytes: succeeds iff at least `n`
bytes remain. -/
def readBytes (n : Nat) (bs : List Nat) : Except Err (List Nat × List Nat) :=
  if n ≤ bs.length then .ok (bs.take n, bs.drop n) else .error .eof

/-- `impl Writeable for String` (src/tdf.rs lines 134-147).  A Rust
string is modelled by its UTF-8 byte list.  The source builds a local
copy `value` with a trailing NUL pushed, but then writes
`VarInt::from(self.len())` and `self.as_bytes()` — the original,
unterminated string — so the local copy never reaches the stream and
the embedded writer emits no NUL and a length that excludes it. -/
def stringWrite (s : List Nat) : List Nat :=
  varIntWrite (Int.ofNat s.length) ++ s

/-- String writer as the specification describes it ("ensures the buffer
ends with exactly one trailing NUL before the length is computed", then
emits length-prefixed bytes).  Modelled from the spec for comparison
with `stringWrite`. -/
def specStringWrite (s : List Nat) : List Nat :=
  let padded := if s.getLast? = some 0 then s else s ++ [0]
  varIntWrite (Int.ofNat padded.length) ++ padded

/-- `impl Readable for String` (src/tdf.rs lines 149-160): read a VarInt
length `n`, allocate `n - 1` bytes (`n = 0` underflows the `usize`
subtraction in `vec![0u8; length - 1]`, modelled by `Err.panic`), read
them, read and discard one byte, then validate UTF-8. -/
def stringRead (bs : List Nat) : Except Err (List Nat × List Nat) :=
  match varIntRead bs with
  | .error e => .error e
  | .ok (len, r1) =>
    let length := len.toNat
    if length = 0 then .error .panic
    else
      match readBytes (length - 1) r1 with
      | .error e => .error e
      | .ok (payload, r2) =>
        match r2 with
        | [] => .error .eof
        | _ :: r3 =>
          if validUtf8 payload then .ok (payload, r3)
          else .error .invalidData

/-- C4: what `Tdf::String` writing emits.  The claim says the writer
emits a VarInt length including one trailing NUL, the UTF-8 bytes, and a
`0x00` terminator; the code instead writes the unpadded original string
(`self`, not the NUL-padded local `value`), so `"hi"` is written as
`[2, 104, 105]` while the specified form is `[3, 104, 105, 0]`. -/
theorem stringWrite_hi_has_no_nul :
    stringWrite [104, 105] = [2, 104, 105] ∧
    specStringWrite [104, 105] = [3, 104, 105, 0] ∧
    stringWrite [104, 105] ≠ specStringWrite [104, 105] := by
  refine ⟨?_, ?_, ?_⟩ <;> simp [stringWrite, specStringWrite, varIntWrite]

/-- C6: `String::read` on the length prefix `n = 0`.  The claim says the
reader must return an empty string; the code computes `length - 1` on a
`usize` that is `0`, which underflows (panics).  The byte stream `[0]`
is a VarInt `0` followed by nothing. -/
theorem stringRead_zero_length_underflows :
    stringRead [0] = .error .panic := by rfl

/-! ## Tagged value model (src/tdf.rs lines 6-95) -/

/-- `TdfType` (src/tdf.rs lines 6-20): the wire type discriminant, with
`unknown` carrying the raw byte for unrecognised values. -/
inductive TdfType where
  | varInt
  | string
  | blob
  | group
  | list
  | map
  | union
  | varIntList
  | pair
  | tripple
  | float
  | unknown : Nat → TdfType
deriving DecidableEq, Repr

/-- `TdfType::value` (src/tdf.rs lines 22-39). -/
def TdfType.value : TdfType → Nat
  | .varInt => 0x0
  | .string => 0x1
  | .blob => 0x2
  | .group => 0x3
  | .list => 0x4
  | .map => 0x5
  | .union => 0x6
  | .varIntList => 0x7
  | .pair => 0x8
  | .tripple => 0x9
  | .float => 0xA
  | .unknown v => v

/-- `impl From<u8> for TdfType` (src/tdf.rs lines 41-58). -/
def tdfTypeFrom : Nat → TdfType
  | 0x0 => .varInt
  | 0x1 => .string
  | 0x2 => .blob
  | 0x3 => .group
  | 0x4 => .list
  | 0x5 => .map
  | 0x6 => .union
  | 0x7 => .varIntList
  | 0x8 => .pair
  | 0x9 => .tripple
  | 0xA => .float
  | v => .unknown v

/-- `Tdf` (src/tdf.rs lines 72-86).  A labeled child
(`LabeledTdf`, src/tdf.rs line 70) is the triple
`(label bytes, type, value)`.  Strings are modelled by their UTF-8
bytes, a `f32` by its 32-bit big-endian bit pattern (both reader and
writer move the four bytes verbatim). -/
inductive Tdf where
  | varInt : Int → Tdf
  | str : List Nat → Tdf
  | blob : List Nat → Tdf
  | group : Bool → List (List Nat × TdfType × Tdf) → Tdf
  | list : TdfType → List Tdf → Tdf
  | map : TdfType → TdfType → List Tdf → List Tdf → Tdf
  | union : Nat → Option (List Nat × TdfType × Tdf) → Tdf
  | varIntList : List Int → Tdf
  | pair : Int → Int → Tdf
  | tripple : Int → Int → Int → Tdf
  | float : Nat → Tdf
  | unknown : Tdf

/-- Labeled value: label bytes, wire type, payload (src/tdf.rs line 70). -/
abbrev LabeledTdf := List Nat × TdfType × Tdf

/-- Four big-endian bytes of a 32-bit value, as `write_f32::<BigEndian>`
emits them for the float's bit pattern. -/
def be32 (pat : Nat) : List Nat :=
  [(pat >>> 24) &&& 0xFF, (pat >>> 16) &&& 0xFF, (pat >>> 8) &&& 0xFF,
    pat &&& 0xFF]

mutual

/-- `impl Writeable for Tdf` (src/tdf.rs lines 234-295).  The `Map` arm
reproduces the source: it emits the two type bytes, no element count,
and then `keys.len() - 1` key/value pairs, where the subtraction
underflows (panics) when `keys` is empty and `values.get(i).unwrap()`
panics when `values` is shorter. -/
def tdfWrite : Tdf → Except Err (List Nat)
  | .varInt v => .ok (varIntWrite v)
  | .str s => .ok (stringWrite s)
  | .blob b => .ok (varIntWrite (Int.ofNat b.length) ++ b)
  | .group start2 values =>
    match labeledListWrite values with
    | .error e => .error e
    | .ok body => .ok ((if start2 then [2] else []) ++ body ++ [0])
  | .list st values =>
    match tdfListWrite values with
    | .error e => .error e
    | .ok body =>
      .ok (st.value :: (varIntWrite (Int.ofNat values.length) ++ body))
  | .map kt vt keys vals =>
    if keys.length = 0 then .error .panic
    else
      match mapPairsWrite (keys.length - 1) keys vals with
      | .error e => .error e
      | .ok body => .ok (kt.value :: vt.value :: body)
  | .union data v =>
    if data ≠ 0x7F then
      match v with
      | none => .error .panic
      | some lv =>
        match labeledWrite lv with
        | .error e => .error e
        | .ok body => .ok (data :: body)
    else .ok [data]
  | .varIntList vs =>
    .ok (varIntWrite (Int.ofNat vs.length) ++ (vs.map varIntWrite).flatten)
  | .pair a b => .ok (varIntWrite a ++ varIntWrite b)
  | .tripple a b c => .ok (varIntWrite a ++ varIntWrite b ++ varIntWrite c)
  | .float pat => .ok (be32 pat)
  | .unknown => .ok []
termination_by t => sizeOf t

/-- `impl Writeable for LabeledTdf` (src/tdf.rs lines 211-221): 3 tag
bytes, 1 type byte, then the body. -/
def labeledWrite : List Nat × TdfType × Tdf → Except Err (List Nat)
  | (label, t, v) =>
    match labelToTag label with
    | none => .error .panic
    | some tagBytes =>
      match tdfWrite v with
      | .error e => .error e
      | .ok body => .ok (tagBytes ++ t.value :: body)
termination_by lv => sizeOf lv

/-- Sequential `value.write(o)?` over a group's children
(src/tdf.rs lines 245-247). -/
def labeledListWrite : List (List Nat × TdfType × Tdf) → Except Err (List Nat)
  | [] => .ok []
  | lv :: rest =>
    match labeledWrite lv with
    | .error e => .error e
    | .ok first =>
      match labeledListWrite rest with
      | .error e => .error e
      | .ok more => .ok (first ++ more)
termination_by l => sizeOf l

/-- Sequential `value.write(o)?` over a list's elements
(src/tdf.rs lines 253-255). -/
def tdfListWrite : List Tdf → Except Err (List Nat)
  | [] => .ok []
  | v :: rest =>
    match tdfWrite v with
    | .error e => .error e
    | .ok first =>
      match tdfListWrite rest with
      | .error e => .error e
      | .ok more => .ok (first ++ more)
termination_by l => sizeOf l

/-- The `for i in 0..(length - 1)` loop of the `Map` write arm
(src/tdf.rs lines 261-266): writes `n` leading key/value pairs, and
panics (`values.get(i).unwrap()`) if either list runs out early. -/
def mapPairsWrite : Nat → List Tdf → List Tdf → Except Err (List Nat)
  | 0, _, _ => .ok []
  | n + 1, k :: ks, v :: vs =>
    match tdfWrite k with
    | .error e => .error e
    | .ok kb =>
      match tdfWrite v with
      | .error e => .error e
      | .ok vb =>
        match mapPairsWrite n ks vs with
        | .error e => .error e
        | .ok more => .ok (kb ++ vb ++ more)
  | _ + 1, _, _ => .error .panic
termination_by _ ks vs => sizeOf ks + sizeOf vs

end

/-! ## Tdf reading (src/tdf.rs lines 223-232 and 305-387) -/

theorem readBytes_length {n : Nat} {bs p r : List Nat}
    (h : readBytes n bs = .ok (p, r)) : r.length ≤ bs.length := by
  simp only [readBytes] at h
  split at h
  · cases h
    simp
  · cases h

theorem stringRead_length {bs p r : List Nat}
    (h : stringRead bs = .ok (p, r)) : r.length < bs.length := by
  simp only [stringRead] at h
  split at h
  next => cases h
  next len r1 hv =>
    have hr1 := varIntRead_length hv
    split at h
    next => cases h
    next =>
      split at h
      next => cases h
      next payload r2 hb =>
        have hr2 := readBytes_length hb
        split at h
        next => cases h
        next b r3 =>
          split at h
          · cases h
            simp only [List.length_cons] at hr2
            omega
          · cases h

/-- The `for _ in 0..(length - 1)` loop of the `VarIntList` read arm
(src/tdf.rs lines 365-367): reads `n` VarInts. -/
def varIntListRead : Nat → List Nat → Except Err (List Int × List Nat)
  | 0, bs => .ok ([], bs)
  | n + 1, bs =>
    match varIntRead bs with
    | .error e => .error e
    | .ok (v, r) =>
      match varIntListRead n r with
      | .error e => .error e
      | .ok (vs, r2) => .ok (v :: vs, r2)

theorem varIntListRead_length {n : Nat} {bs r : List Nat} {vs : List Int}
    (h : varIntListRead n bs = .ok (vs, r)) : r.length ≤ bs.length := by
  induction n generalizing bs vs with
  | zero =>
    simp only [varIntListRead] at h
    cases h
    exact le_refl _
  | succ m ih =>
    simp only [varIntListRead] at h
    split at h
    next => cases h
    next v r1 hv =>
      split at h
      next => cases h
      next vs2 r2 hrec =>
        cases h
        exact le_trans (ih hrec) (Nat.le_of_lt (varIntRead_length hv))

mutual

/-- `Tdf::read` (src/tdf.rs lines 306-387).  Each result carries the
remaining stream together with a proof that reading never lengthens the
stream, which is what makes this mutual recursion (and hence the Rust
loops it mirrors) terminate on every finite input.  The `List`, `Map`
and `VarIntList` arms reproduce the source's `0..(length - 1)` loops:
`length = 0` underflows the `usize` subtraction (modelled by
`Err.panic`), and otherwise `length - 1` elements are read. -/
def tdfRead (t : TdfType) (bs : List Nat) :
    Except Err (Tdf × {r : List Nat // r.length ≤ bs.length}) :=
  match t with
  | .varInt =>
    match h : varIntRead bs with
    | .error e => .error e
    | .ok (v, r) => .ok (.varInt v, ⟨r, Nat.le_of_lt (varIntRead_length h)⟩)
  | .string =>
    match h : stringRead bs with
    | .error e => .error e
    | .ok (s, r) => .ok (.str s, ⟨r, Nat.le_of_lt (stringRead_length h)⟩)
  | .blob =>
    match h : varIntRead bs with
    | .error e => .error e
    | .ok (size, r1) =>
      match h2 : readBytes size.toNat r1 with
      | .error e => .error e
      | .ok (bytes, r2) =>
        .ok (.blob bytes,
          ⟨r2, le_trans (readBytes_length h2) (Nat.le_of_lt (varIntRead_length h))⟩)
  | .group =>
    match groupLoop false bs with
    | .error e => .error e
    | .ok ((fl, kids), r) => .ok (.group fl kids, r)
  | .list =>
    match bs with
    | [] => .error .eof
    | st :: r0 =>
      match h : varIntRead r0 with
      | .error e => .error e
      | .ok (len, r1) =>
        if len.toNat = 0 then .error .panic
        else
          let hlen := varIntRead_length h
          let hbnd := varIntRead_bound h
          match listLoop (tdfTypeFrom st) (len.toNat - 1) r1 with
          | .error e => .error e
          | .ok (vs, ⟨r2, h2⟩) =>
            .ok (.list (tdfTypeFrom st) vs,
              ⟨r2, by simp only [List.length_cons]; omega⟩)
  | .map =>
    match bs with
    | ktb :: vtb :: r0 =>
      match h : varIntRead r0 with
      | .error e => .error e
      | .ok (len, r1) =>
        if len.toNat = 0 then .error .panic
        else
          let hlen := varIntRead_length h
          let hbnd := varIntRead_bound h
          match mapLoop (tdfTypeFrom ktb) (tdfTypeFrom vtb) (len.toNat - 1) r1 with
          | .error e => .error e
          | .ok ((ks, vs), ⟨r2, h2⟩) =>
            .ok (.map (tdfTypeFrom ktb) (tdfTypeFrom vtb) ks vs,
              ⟨r2, by simp only [List.length_cons]; omega⟩)
    | _ => .error .eof
  | .union =>
    match bs with
    | [] => .error .eof
    | data :: rest =>
      if data ≠ 0x7F then
        match labeledRead rest with
        | .error e => .error e
        | .ok (lv, ⟨r, hr⟩) =>
          .ok (.union data (some lv), ⟨r, by simp only [List.length_cons]; omega⟩)
      else .ok (.union data none, ⟨rest, by simp⟩)
  | .varIntList =>
    match h : varIntRead bs with
    | .error e => .error e
    | .ok (len, r1) =>
      if len.toNat = 0 then .error .panic
      else
        match h2 : varIntListRead (len.toNat - 1) r1 with
        | .error e => .error e
        | .ok (vs, r2) =>
          .ok (.varIntList vs,
            ⟨r2, le_trans (varIntListRead_length h2)
              (Nat.le_of_lt (varIntRead_length h))⟩)
  | .pair =>
    match h : varIntRead bs with
    | .error e => .error e
    | .ok (a, r1) =>
      match h2 : varIntRead r1 with
      | .error e => .error e
      | .ok (b, r2) =>
        .ok (.pair a b, ⟨r2, by
          have ha := varIntRead_length h
          have hb := varIntRead_length h2
          omega⟩)
  | .tripple =>
    match h : varIntRead bs with
    | .error e => .error e
    | .ok (a, r1) =>
      match h2 : varIntRead r1 with
      | .error e => .error e
      | .ok (b, r2) =>
        match h3 : varIntRead r2 with
        | .error e => .error e
        | .ok (c, r3) =>
          .ok (.tripple a b c, ⟨r3, by
            have ha := varIntRead_length h
            have hb := varIntRead_length h2
            have hc := varIntRead_length h3
            omega⟩)
  | .float =>
    match bs with
    | b0 :: b1 :: b2 :: b3 :: rest =>
      .ok (.float (b0 * 2 ^ 24 + b1 * 2 ^ 16 + b2 * 2 ^ 8 + b3),
        ⟨rest, by simp only [List.length_cons]; omega⟩)
    | _ => .error .eof
  | .unknown _ => .ok (.unknown, ⟨bs, le_refl _⟩)
termination_by 50000 * bs.length + 3

/-- `impl Readable for LabeledTdf` (src/tdf.rs lines 223-232): a 4-byte
big-endian head whose top 3 bytes are the tag and whose low byte is the
type, then the body.  Always consumes at least the 4 head bytes. -/
def labeledRead (bs : List Nat) :
    Except Err (LabeledTdf × {r : List Nat // r.length + 4 ≤ bs.length}) :=
  match bs with
  | b0 :: b1 :: b2 :: b3 :: rest =>
    match tdfRead (tdfTypeFrom ((b0 * 2 ^ 24 + b1 * 2 ^ 16 + b2 * 2 ^ 8 + b3) &&& 0xFF)) rest with
    | .error e => .error e
    | .ok (v, ⟨r, hr⟩) =>
      .ok ((tagToLabel ((b0 * 2 ^ 24 + b1 * 2 ^ 16 + b2 * 2 ^ 8 + b3) &&& 0xFFFFFF00),
            tdfTypeFrom ((b0 * 2 ^ 24 + b1 * 2 ^ 16 + b2 * 2 ^ 8 + b3) &&& 0xFF), v),
        ⟨r, by simp only [List.length_cons]; omega⟩)
  | _ => .error .eof
termination_by 50000 * bs.length

/-- The `'group: loop` of the `Group` read arm (src/tdf.rs lines
316-331).  A `0` byte ends the group; a `2` byte sets the start-marker
flag and — exactly as in the source, which has no `continue` — the same
iteration then reads a labeled child; any other byte is pushed back
(`seek(-1)`) and a labeled child is read. -/
def groupLoop (flag : Bool) (bs : List Nat) :
    Except Err ((Bool × List LabeledTdf) × {r : List Nat // r.length ≤ bs.length}) :=
  match bs with
  | [] => .error .eof
  | b :: rest =>
    if b = 0 then .ok ((flag, []), ⟨rest, by simp⟩)
    else if b = 2 then
      match labeledRead rest with
      | .error e => .error e
      | .ok (child, ⟨r1, h1⟩) =>
        match groupLoop true r1 with
        | .error e => .error e
        | .ok ((fl, kids), ⟨r2, h2⟩) =>
          .ok ((fl, child :: kids), ⟨r2, by simp only [List.length_cons]; omega⟩)
    else
      match labeledRead (b :: rest) with
      | .error e => .error e
      | .ok (child, ⟨r1, h1⟩) =>
        match groupLoop flag r1 with
        | .error e => .error e
        | .ok ((fl, kids), ⟨r2, h2⟩) =>
          .ok ((fl, child :: kids),
            ⟨r2, by simp only [List.length_cons] at h1 ⊢; omega⟩)
termination_by 50000 * bs.length + 1
decreasing_by
  all_goals
    first
    | omega
    | (simp only [List.length_cons] at *; omega)

/-- The `for _ in 0..(length - 1)` loop of the `List` read arm
(src/tdf.rs lines 336-338): reads `n` elements of type `et`. -/
def listLoop (et : TdfType) (n : Nat) (bs : List Nat) :
    Except Err (List Tdf × {r : List Nat // r.length ≤ bs.length}) :=
  match n with
  | 0 => .ok ([], ⟨bs, le_refl _⟩)
  | m + 1 =>
    match tdfRead et bs with
    | .error e => .error e
    | .ok (v, ⟨r1, h1⟩) =>
      match listLoop et m r1 with
      | .error e => .error e
      | .ok (vs, ⟨r2, h2⟩) => .ok (v :: vs, ⟨r2, le_trans h2 h1⟩)
termination_by 50000 * bs.length + 5 * n + 2

/-- The `for _ in 0..(length - 1)` loop of the `Map` read arm
(src/tdf.rs lines 347-350): reads `n` interleaved key/value pairs into
two parallel lists. -/
def mapLoop (kt vt : TdfType) (n : Nat) (bs : List Nat) :
    Except Err ((List Tdf × List Tdf) × {r : List Nat // r.length ≤ bs.length}) :=
  match n with
  | 0 => .ok (([], []), ⟨bs, le_refl _⟩)
  | m + 1 =>
    match tdfRead kt bs with
    | .error e => .error e
    | .ok (k, ⟨r1, h1⟩) =>
      match tdfRead vt r1 with
      | .error e => .error e
      | .ok (v, ⟨r2, h2⟩) =>
        match mapLoop kt vt m r2 with
        | .error e => .error e
        | .ok ((ks, vs), ⟨r3, h3⟩) =>
          .ok ((k :: ks, v :: vs), ⟨r3, le_trans h3 (le_trans h2 h1)⟩)
termination_by 50000 * bs.length + 5 * n + 2

end

/-- `Tdf::read` with the refinement proof erased from the result. -/
def Tdf.readFn (t : TdfType) (bs : List Nat) : Except Err (Tdf × List Nat) :=
  match tdfRead t bs with
  | .error e => .error e
  | .ok (v, r) => .ok (v, r.val)

/-- `LabeledTdf::read` with the refinement proof erased from the result. -/
def labeledReadFn (bs : List Nat) : Except Err (LabeledTdf × List Nat) :=
  match labeledRead bs with
  | .error e => .error e
  | .ok (v, r) => .ok (v, r.val)

/-! ## Packet framing (src/packet.rs) -/

/-- `Packet` (src/packet.rs lines 9-17).  The base length field is
consumed while framing and not stored, as in the source. -/
structure Packet where
  component : Nat
  command : Nat
  error : Nat
  qtype : Nat
  id : Nat
  content : List Nat
deriving DecidableEq, Repr

/-- One big-endian `u16` read (`read_u16` in src/packet.rs). -/
def readU16 : List Nat → Except Err (Nat × List Nat)
  | b0 :: b1 :: rest => .ok (b0 * 256 + b1, rest)
  | _ => .error .eof

/-- `read_packet` (src/packet.rs lines 19-38): six big-endian `u16`
fields (base length, component, command, error, qtype, id), one
additional `u16` length extension iff `qtype & 0x10` is set (else `0`),
then exactly `length + (ext << 16)` content bytes. -/
def readPacket (bs : List Nat) : Except Err (Packet × List Nat) :=
  match readU16 bs with
  | .error e => .error e
  | .ok (length, r1) =>
    match readU16 r1 with
    | .error e => .error e
    | .ok (component, r2) =>
      match readU16 r2 with
      | .error e => .error e
      | .ok (command, r3) =>
        match readU16 r3 with
        | .error e => .error e
        | .ok (err, r4) =>
          match readU16 r4 with
          | .error e => .error e
          | .ok (qtype, r5) =>
            match readU16 r5 with
            | .error e => .error e
            | .ok (idv, r6) =>
              match (if qtype &&& 0x10 ≠ 0 then readU16 r6 else .ok (0, r6)) with
              | .error e => .error e
              | .ok (extLength, r7) =>
                match readBytes (length + (extLength <<< 16)) r7 with
                | .error e => .error e
                | .ok (content, r8) =>
                  .ok ({ component := component, command := command,
                         error := err, qtype := qtype, id := idv,
                         content := content }, r8)

/-- `read_packet_contents` (src/packet.rs lines 40-49): repeatedly read
labeled values from the packet content until the cursor reaches the end. -/
def readPacketContents (bs : List Nat) : Except Err (List LabeledTdf) :=
  match bs with
  | [] => .ok []
  | b :: rest =>
    match labeledRead (b :: rest) with
    | .error e => .error e
    | .ok (v, ⟨r, hr⟩) =>
      match readPacketContents r with
      | .error e => .error e
      | .ok vs => .ok (v :: vs)
termination_by bs.length
decreasing_by simp only [List.length_cons] at hr ⊢; omega

/-- Big-endian byte pair of a `u16` value. -/
def enc16 (x : Nat) : List Nat := [x / 256, x % 256]

theorem readU16_enc16 (x : Nat) (r : List Nat) :
    readU16 (enc16 x ++ r) = .ok (x, r) := by
  have hx : x / 256 * 256 + x % 256 = x := by omega
  simp only [enc16, List.cons_append, List.nil_append, readU16, hx]

theorem readBytes_exact (content r : List Nat) :
    readBytes content.length (content ++ r) = .ok (content, r) := by
  simp [readBytes, List.take_left, List.drop_left]

/-! ## Claim theorems on the Tdf model -/

/-- C1: Tdf round-trip.  This theorem records the failure of the claim
on the code at the value `Tdf::String("hi")`: the writer emits
`[2, 104, 105]` (length excluding any NUL, no terminator — see
`stringWrite`), and the reader then takes `2 - 1 = 1` payload byte and
discards the second as the supposed NUL, returning `"h"`, a different
value.  Encoding is deterministic here by construction (writers are pure
functions), but the decode half of the round-trip fails. -/
theorem tdf_string_roundTrip_fails :
    tdfWrite (.str [104, 105]) = .ok [2, 104, 105] ∧
    Tdf.readFn .string [2, 104, 105] = .ok (.str [104], []) ∧
    Tdf.str [104] ≠ Tdf.str [104, 105] := by
  refine ⟨?_, by rw [Tdf.readFn, tdfRead]; rfl, by simp⟩
  simp [tdfWrite, stringWrite, varIntWrite]

/-- C5: empty collections.  Writing an empty `Map` hits the
`0..(keys.len() - 1)` underflow and panics; decoding a `List`, `Map` or
`VarIntList` whose encoded count is `0` hits the same `length - 1`
underflow instead of producing an empty collection.  (Writing an empty
`List` or `VarIntList` does succeed, as recorded here, since those write
arms emit the true count.) -/
theorem empty_collections_underflow :
    tdfWrite (.map .varInt .varInt [] []) = .error .panic ∧
    Tdf.readFn .list [0x0, 0] = .error .panic ∧
    Tdf.readFn .map [0x0, 0x0, 0] = .error .panic ∧
    Tdf.readFn .varIntList [0] = .error .panic ∧
    tdfWrite (.list .varInt []) = .ok [0x0, 0] ∧
    tdfWrite (.varIntList []) = .ok [0] := by
  refine ⟨by simp [tdfWrite],
    by rw [Tdf.readFn, tdfRead]; rfl,
    by rw [Tdf.readFn, tdfRead]; rfl,
    by rw [Tdf.readFn, tdfRead]; rfl,
    ?_, ?_⟩
  · simp [tdfWrite, tdfListWrite, varIntWrite, TdfType.value]
  · simp [tdfWrite, varIntWrite]

/-- C7: Group decoding of the body `[2, 0]`.  The claim says the marker
byte `2` is consumed without being treated as a child, so `[2, 0]` is an
empty group with the marker set — and indeed the writer produces
`[2, 0]` for exactly that group.  But the source's loop has no
`continue`: after recording the marker it immediately performs a labeled
read, which consumes the terminator as the first head byte and fails
with end-of-stream. -/
theorem group_marker_only_body_fails :
    tdfWrite (.group true []) = .ok [2, 0] ∧
    Tdf.readFn .group [2, 0] = .error .eof := by
  refine ⟨by simp [tdfWrite, labeledListWrite], ?_⟩
  rw [Tdf.readFn, tdfRead,
    show groupLoop false [2, 0] = .error .eof from by
      rw [groupLoop,
        show labeledRead ([0] : List Nat) = .error .eof from by
          rw [labeledRead]
          intro b0 b1 b2 b3 rest h
          simp at h]
      rfl]

/-- C8: packet framing.  `read_packet` reads six big-endian `u16` fields
(base length, component, command, error, qtype, id), reads one
additional big-endian `u16` length extension exactly when
`qtype & 0x10` is nonzero (else it is `0`), and then reads exactly
`base_length + (extension << 16)` content bytes, leaving the rest of the
stream untouched. -/
theorem readPacket_fields (len comp cmd err qt idv ext : Nat)
    (hlen : len < 65536) (hcomp : comp < 65536) (hcmd : cmd < 65536)
    (herr : err < 65536) (hqt : qt < 65536) (hid : idv < 65536)
    (hext : ext < 65536) (content rest : List Nat)
    (hcontent : content.length =
      len + (if qt &&& 0x10 ≠ 0 then ext else 0) * 65536) :
    readPacket (enc16 len ++ enc16 comp ++ enc16 cmd ++ enc16 err ++
        enc16 qt ++ enc16 idv ++
        (if qt &&& 0x10 ≠ 0 then enc16 ext else []) ++ content ++ rest) =
      .ok ({ component := comp, command := cmd, error := err, qtype := qt,
             id := idv, content := content }, rest) := by
  by_cases hq : qt &&& 0x10 = 0
  · simp only [hq, ne_eq, not_true_eq_false, if_false, ite_false] at hcontent
    have hc2 : len = content.length := by omega
    simp [readPacket, List.append_assoc, readU16_enc16, hq, hc2,
      readBytes_exact]
  · simp only [ne_eq, hq, not_false_eq_true, if_true, ite_true] at hcontent
    have hc2 : len + (ext <<< 16) = content.length := by
      rw [Nat.shiftLeft_eq]
      omega
    simp [readPacket, List.append_assoc, readU16_enc16, hq, hc2,
      readBytes_exact]

/-- Witness for `readPacket_fields`: a packet with `qtype = 0x10` (so
the length-extension field is present and read), base length `1`,
extension `0`, one content byte and one trailing byte. -/
theorem readPacket_fields_witness :
    readPacket (enc16 1 ++ enc16 2 ++ enc16 3 ++ enc16 4 ++
        enc16 0x10 ++ enc16 5 ++
        (if (0x10 : Nat) &&& 0x10 ≠ 0 then enc16 0 else []) ++ [7] ++ [9]) =
      .ok ({ component := 2, command := 3, error := 4, qtype := 0x10,
             id := 5, content := [7] }, [9]) :=
  readPacket_fields 1 2 3 4 0x10 5 0 (by decide) (by decide) (by decide)
    (by decide) (by decide) (by decide) (by decide) [7] [9] (by decide)

/-- C10: termination of the decoders.  `VarInt::read`, `Tdf::read`,
`LabeledTdf::read` and `read_packet_contents` are total functions of the
input bytes — their Lean embeddings are defined by well-founded
recursion on the stream length, which is exactly the claim's progress
argument — and on every finite input each returns either a decoded value
or an error, never lengthening the stream (a successful labeled read
consumes at least its 4 head bytes). -/
theorem decoders_terminate (t : TdfType) (bs : List Nat) :
    ((∃ v r, varIntRead bs = .ok (v, r) ∧ r.length < bs.length) ∨
      (∃ e, varIntRead bs = .error e)) ∧
    ((∃ v r, Tdf.readFn t bs = .ok (v, r) ∧ r.length ≤ bs.length) ∨
      (∃ e, Tdf.readFn t bs = .error e)) ∧
    ((∃ v r, labeledReadFn bs = .ok (v, r) ∧ r.length + 4 ≤ bs.length) ∨
      (∃ e, labeledReadFn bs = .error e)) ∧
    ((∃ vs, readPacketContents bs = .ok vs) ∨
      (∃ e, readPacketContents bs = .error e)) := by
  refine ⟨?_, ?_, ?_, ?_⟩
  · rcases h : varIntRead bs with e | ⟨v, r⟩
    · exact .inr ⟨e, rfl⟩
    · exact .inl ⟨v, r, rfl, varIntRead_length h⟩
  · rcases h : tdfRead t bs with e | ⟨v, r, hr⟩
    · exact .inr ⟨e, by simp only [Tdf.readFn, h]⟩
    · exact .inl ⟨v, r, by simp only [Tdf.readFn, h], hr⟩
  · rcases h : labeledRead bs with e | ⟨v, r, hr⟩
    · exact .inr ⟨e, by simp only [labeledReadFn, h]⟩
    · exact .inl ⟨v, r, by simp only [labeledReadFn, h], hr⟩
  · rcases h : readPacketContents bs with e | vs
    · exact .inr ⟨e, rfl⟩
    · exact .inl ⟨vs, rfl⟩
